import Mathlib

/-!
# Verification of the food-api backend (src/app.py)

Shallow embedding of the parsing / workout-plan logic of `src/app.py`:
the numeric range parser `_avg_from_range_text`, the nutrition field
extractor `extract_fields`, the plan JSON normalizer `safe_json_extract`,
the deterministic fallback planner `fallback_plan`, and the enrichment
performed by the `workout_plan` endpoint handler.

Modelling conventions:
* Python floats are modelled as rationals (`ℚ`); `round(x, 1)` is modelled
  as exact round-half-to-even at one decimal (float representation
  artifacts are not modelled).
* Python regex searches are modelled by explicit leftmost scans with
  greedy (maximal-munch) sub-matchers; for the concrete patterns of
  `app.py` all adjacent pattern elements have disjoint character classes
  (except the `\s*(.+)` tail of the dish-name pattern, whose give-back
  step is modelled explicitly), so the deterministic maximal-munch
  matchers coincide with Python's backtracking semantics.
* ASCII case folding only (`str.lower`, `re.IGNORECASE`).
* `json.loads` is a Python library call, not code of this repository; it
  is modelled as an abstract `parse : String → Option α` argument.
* Candidates are modelled by the spec's CandidateExercise record
  (id / name / met); untrusted model-supplied plan items keep every field
  optional.
-/

namespace FoodApi

/-- Python regex `\s` / the whitespace removed by `str.strip()` (ASCII). -/
def pyIsSpace (c : Char) : Bool :=
  c = ' ' ∨ c = '\t' ∨ c = '\n' ∨ c = '\r' ∨ c = '\x0b' ∨ c = '\x0c'

/-- Python `str.strip()` on a character list. -/
def pyStripL (cs : List Char) : List Char :=
  ((cs.dropWhile pyIsSpace).reverse.dropWhile pyIsSpace).reverse

/-- Python `str.strip()`. -/
def pyStrip (s : String) : String :=
  String.mk (pyStripL s.data)

/-- Decimal value of a digit character. -/
def digitVal (c : Char) : Nat := c.toNat - 48

/-- Value of a (big-endian) digit string, as Python `int()` computes it. -/
def digitsToNat (ds : List Char) : Nat :=
  ds.foldl (fun a c => a * 10 + digitVal c) 0

/-- Greedy match of `\d+` at the start: maximal nonempty digit run. -/
def takeDigits (cs : List Char) : Option (List Char × List Char) :=
  let ds := cs.takeWhile Char.isDigit
  if ds.isEmpty then none else some (ds, cs.drop ds.length)

/-- Greedy match of `\d+(?:\.\d+)?` at the start, returning its rational
value (as Python `float()` would read it) and the rest of the input. -/
def parseDec (cs : List Char) : Option (ℚ × List Char) :=
  match takeDigits cs with
  | none => none
  | some (ds, rest) =>
    match rest with
    | [] => some ((digitsToNat ds : ℚ), [])
    | c :: rest2 =>
      if c = '.' then
        match takeDigits rest2 with
        | some (fs, rest3) =>
          some ((digitsToNat ds : ℚ) + (digitsToNat fs : ℚ) / (10 : ℚ) ^ fs.length, rest3)
        | none => some ((digitsToNat ds : ℚ), c :: rest2)
      else some ((digitsToNat ds : ℚ), c :: rest2)

/-- Greedy `\s*`. -/
def skipSpaces (cs : List Char) : List Char := cs.dropWhile pyIsSpace

/-- The range separators accepted by `app.py`: hyphen or en-dash. -/
def isDash (c : Char) : Bool := c = '-' ∨ c = '–'

/-- Model of `re.search`: try the pattern matcher at each start offset in order;
the leftmost successful attempt wins. -/
def searchL (p : List Char → Option α) : List Char → Option α
  | [] => p []
  | cs@(_ :: rest) =>
    match p cs with
    | some v => some v
    | none => searchL p rest

/-- One attempt of `(\d+(?:\.\d+)?)\s*[-–]\s*(\d+(?:\.\d+)?)` anchored at
the start of the input, returning the two captured numbers. -/
def tryRange (cs : List Char) : Option (ℚ × ℚ) :=
  match parseDec cs with
  | none => none
  | some (a, r1) =>
    match skipSpaces r1 with
    | c :: r2 =>
      if isDash c then
        match parseDec (skipSpaces r2) with
        | some (b, _) => some (a, b)
        | none => none
      else none
    | [] => none

/-- Embedding of `_avg_from_range_text` from `src/app.py`: midpoint of a "A-B" range,
else the first bare number, else absent. -/
def avg_from_range_text (text : Option String) : Option ℚ :=
  match text with
  | none => none
  | some s =>
    let t := pyStripL s.data
    match searchL tryRange t with
    | some (a, b) => some ((a + b) / 2)
    | none =>
      match searchL (fun cs => (parseDec cs).map Prod.fst) t with
      | some v => some v
      | none => none

/-- The record produced by `extract_fields`. -/
structure ParsedNutrition where
  dishName : Option String
  kcalRange : Option (Nat × Nat)
  proteinG : Option ℚ
  carbsG : Option ℚ
  fatG : Option ℚ
  deriving DecidableEq

/-- Match a literal character sequence at the start (case-sensitive). -/
def matchLit : List Char → List Char → Option (List Char)
  | [], cs => some cs
  | _, [] => none
  | l :: ls, c :: cs => if c = l then matchLit ls cs else none

/-- Match a literal (given lowercase) at the start, ignoring ASCII case. -/
def matchLitCI : List Char → List Char → Option (List Char)
  | [], cs => some cs
  | _, [] => none
  | l :: ls, c :: cs => if c.toLower = l then matchLitCI ls cs else none

/-- The `\s*(.+)` tail of the dish-name pattern, with Python's give-back:
greedy whitespace, then at least one non-newline character, the group
running greedily up to the next newline or the end. -/
def captureRest (r : List Char) : Option (List Char) :=
  let sp := r.takeWhile pyIsSpace
  let rest := r.drop sp.length
  match rest with
  | _ :: _ => some (rest.takeWhile (fun c => ¬ (c = '\n')))
  | [] =>
    match r.reverse.dropWhile (fun c => c = '\n') with
    | [] => none
    | c :: _ => some [c]

/-- One attempt of `dish name\s*[:\-]\s*(.+)` (IGNORECASE) at the start,
returning the captured group. -/
def tryDish (cs : List Char) : Option (List Char) :=
  match matchLitCI "dish name".data cs with
  | none => none
  | some r1 =>
    match skipSpaces r1 with
    | c :: r2 => if c = ':' ∨ c = '-' then captureRest r2 else none
    | [] => none

/-- Post-processing of the dish-name group in `extract_fields`:
`.strip()`, then `re.split(r"\n|\*", ·)[0]`, then `.strip()`. -/
def dishPost (g : List Char) : String :=
  let g1 := pyStripL g
  let g2 := g1.takeWhile (fun c => ¬ (c = '\n') ∧ ¬ (c = '*'))
  String.mk (pyStripL g2)

/-- One attempt of `(\d+)\s*[-–]\s*(\d+)\s*kcal` at the start. -/
def tryKcalDash (cs : List Char) : Option (Nat × Nat) :=
  match takeDigits cs with
  | none => none
  | some (ds, r1) =>
    match skipSpaces r1 with
    | c :: r2 =>
      if isDash c then
        match takeDigits (skipSpaces r2) with
        | some (es, r3) =>
          match matchLit "kcal".data (skipSpaces r3) with
          | some _ => some (digitsToNat ds, digitsToNat es)
          | none => none
        | none => none
      else none
    | [] => none

/-- One attempt of `(\d+)\s*(?:to)\s*(\d+)\s*kcal` at the start. -/
def tryKcalTo (cs : List Char) : Option (Nat × Nat) :=
  match takeDigits cs with
  | none => none
  | some (ds, r1) =>
    match matchLit "to".data (skipSpaces r1) with
    | some r2 =>
      match takeDigits (skipSpaces r2) with
      | some (es, r3) =>
        match matchLit "kcal".data (skipSpaces r3) with
        | some _ => some (digitsToNat ds, digitsToNat es)
        | none => none
      | none => none
    | none => none

/-- Greedy `\s*[:\-]?\s*` separator after a macro label. -/
def skipSep (cs : List Char) : List Char :=
  match skipSpaces cs with
  | c :: r2 => if c = ':' ∨ c = '-' then skipSpaces r2 else c :: r2
  | [] => []

/-- The group text captured by `([0-9]+(?:\.[0-9]+)?(?:\s*[-–]\s*[0-9]+(?:\.[0-9]+)?)?)`
followed by `\s*g`, anchored at the start; the raw group substring is
returned (it is re-parsed by `avg_from_range_text`, as in the code). -/
def tryGramNum (cs : List Char) : Option (List Char) :=
  match parseDec cs with
  | none => none
  | some (_, r1) =>
    let groupTo := fun (rest : List Char) => cs.take (cs.length - rest.length)
    let tailRange :=
      match skipSpaces r1 with
      | c :: r3 =>
        if isDash c then
          match parseDec (skipSpaces r3) with
          | some (_, r4) => some r4
          | none => none
        else some r1
      | [] => some r1
    match tailRange with
    | none => none
    | some rest =>
      match matchLit ['g'] (skipSpaces rest) with
      | some _ => some (groupTo rest)
      | none => none

/-- One attempt of the protein pattern at the start (on lowered text). -/
def tryProtein (cs : List Char) : Option (List Char) :=
  match matchLit "protein".data cs with
  | some r => tryGramNum (skipSep r)
  | none => none

/-- One attempt of the carbs pattern (label alternation
`carbs|carbohydrates|carbohydrate`) at the start. -/
def tryCarbs (cs : List Char) : Option (List Char) :=
  match matchLit "carbs".data cs with
  | some r => tryGramNum (skipSep r)
  | none =>
    match matchLit "carbohydrates".data cs with
    | some r => tryGramNum (skipSep r)
    | none =>
      match matchLit "carbohydrate".data cs with
      | some r => tryGramNum (skipSep r)
      | none => none

/-- One attempt of the fat pattern at the start. -/
def tryFat (cs : List Char) : Option (List Char) :=
  match matchLit "fat".data cs with
  | some r => tryGramNum (skipSep r)
  | none => none

/-- Embedding of `extract_fields` from `src/app.py`. -/
def extract_fields (raw_text : Option String) : ParsedNutrition :=
  let text := pyStripL (raw_text.getD "").data
  let low := text.map Char.toLower
  { dishName := (searchL tryDish text).map dishPost
    kcalRange :=
      match searchL tryKcalDash low with
      | some p => some p
      | none => searchL tryKcalTo low
    proteinG := (searchL tryProtein low).bind
      (fun g => avg_from_range_text (some (String.mk g)))
    carbsG := (searchL tryCarbs low).bind
      (fun g => avg_from_range_text (some (String.mk g)))
    fatG := (searchL tryFat low).bind
      (fun g => avg_from_range_text (some (String.mk g))) }

/-- Python `round` (banker's rounding) to an integer, on exact rationals. -/
def pyRoundHalfEven (x : ℚ) : Int :=
  if x - ⌊x⌋ < 1/2 then ⌊x⌋
  else if 1/2 < x - ⌊x⌋ then ⌊x⌋ + 1
  else if ⌊x⌋ % 2 = 0 then ⌊x⌋ else ⌊x⌋ + 1

/-- Python `round(x, 1)` on exact rationals. -/
def pyRound1 (x : ℚ) : ℚ := (pyRoundHalfEven (10 * x) : ℚ) / 10

/-- A candidate exercise (spec data model: id, name, met). -/
structure Candidate where
  id : String
  name : String
  met : ℚ
  deriving DecidableEq

/-- An untrusted plan item as found in model-produced (or fallback) JSON. -/
structure RawItem where
  id : Option String
  minutes : Option ℚ
  sets : Option Int
  reps : Option Int
  note : Option String
  deriving DecidableEq

/-- An untrusted parsed plan object. -/
structure PlanJson where
  planTitle : Option String
  items : Option (List RawItem)
  deriving DecidableEq

/-- Embedding of `kcal_burned` from `src/app.py`. -/
def kcal_burned (met weightKg minutes : ℚ) : ℚ :=
  met * weightKg * minutes / 60

/-- The greedy selection loop of `fallback_plan`: walk the sorted
candidates, stop when the remaining gap is closed or five items exist.
`n` is the number of items accumulated so far. -/
def fallbackLoop (weightKg : ℚ) : List Candidate → ℚ → Nat → List RawItem
  | [], _, _ => []
  | c :: cs, remaining, n =>
    if remaining ≤ 0 then []
    else
      let minutes := max 4 (min 12 (remaining * 60 / (c.met * weightKg)))
      let burned := kcal_burned c.met weightKg minutes
      let item : RawItem :=
        { id := some c.id, minutes := some (pyRound1 minutes), sets := none,
          reps := none, note := some "Auto plan (fallback)." }
      if n + 1 ≥ 5 then [item]
      else item :: fallbackLoop weightKg cs (remaining - burned) (n + 1)

/-- Embedding of `fallback_plan` from `src/app.py`: keep positive-MET candidates, sort
descending by MET (Python's sort is stable; modelled by stable insertion
sort, which agrees with any stable sort), walk the first ten greedily. -/
def fallback_plan (targetCalories weightKg : ℚ) (candidates : List Candidate) : PlanJson :=
  let cands := candidates.filter (fun c => decide (0 < c.met))
  let sorted := List.insertionSort (fun a b => b.met ≤ a.met) cands
  { planTitle := some "AI Workout Plan",
    items := some (fallbackLoop weightKg (sorted.take 10) targetCalories 0) }

/-- Python `str.find`: index of the first occurrence, if any. -/
def pyFind (cs : List Char) (c : Char) : Option Nat :=
  cs.findIdx? (· == c)

/-- Python `str.rfind`: index of the last occurrence, if any. -/
def pyRfind (cs : List Char) (c : Char) : Option Nat :=
  match cs.reverse.findIdx? (· == c) with
  | some i => some (cs.length - 1 - i)
  | none => none

/-- Embedding of `safe_json_extract` from `src/app.py`; `json.loads` is the abstract
`parse` argument, `none` standing for a parse error.  A `none` result
models the raised exception that signals the caller to fall back. -/
def safe_json_extract (parse : String → Option α) (text : String) : Option α :=
  let t := pyStrip text
  match parse t with
  | some v => some v
  | none =>
    match pyFind t.data '{', pyRfind t.data '}' with
    | some s, some e =>
      if s < e then parse (String.mk ((t.data.drop s).take (e + 1 - s)))
      else none
    | some _, none => none
    | none, _ => none

/-- An enriched response item. -/
structure OutItem where
  id : String
  name : String
  met : ℚ
  minutes : ℚ
  sets : Option Int
  reps : Option Int
  note : String
  deriving DecidableEq

/-- The single-plan endpoint's success payload. -/
structure PlanResponse where
  planTitle : String
  totalMinutes : ℚ
  items : List OutItem
  deriving DecidableEq

/-- An HTTP-level outcome: 200 payload or an error status with message. -/
inductive Response where
  | ok : PlanResponse → Response
  | err : Nat → String → Response
  deriving DecidableEq

/-- The `by_id` dict of the handler: on duplicate ids the later candidate
wins, as in a Python dict comprehension. -/
def lookupId (cands : List Candidate) (k : String) : Option Candidate :=
  cands.reverse.find? (fun c => c.id == k)

/-- The stripped id the handler computes for an item:
`(it.get("id") or "").strip()`. -/
def stripId (it : RawItem) : String := pyStrip (it.id.getD "")

/-- Whether the enrichment loop keeps an item: nonempty stripped id,
positive minutes, id found among the candidates. -/
def keep (cands : List Candidate) (it : RawItem) : Bool :=
  decide (¬ (stripId it = "")) && decide (0 < it.minutes.getD 0)
    && (lookupId cands (stripId it)).isSome

/-- The enriched item built for a kept raw item. -/
def enrichOne (cands : List Candidate) (it : RawItem) : OutItem :=
  let ex_id := stripId it
  let cand := (lookupId cands ex_id).getD { id := ex_id, name := "", met := 0 }
  { id := ex_id
    name := if cand.name = "" then ex_id else cand.name
    met := cand.met
    minutes := max 3 (min 20 (it.minutes.getD 0))
    sets := it.sets
    reps := it.reps
    note := it.note.getD "" }

/-- The enrichment loop of the `workout_plan` handler, with the
`total_minutes` accumulator, exactly as in the code. -/
def enrichLoop (cands : List Candidate) : List RawItem → ℚ → List OutItem × ℚ
  | [], tot => ([], tot)
  | it :: rest, tot =>
    let ex_id := pyStrip (it.id.getD "")
    let minutes0 := it.minutes.getD 0
    if ex_id = "" ∨ minutes0 ≤ 0 then enrichLoop cands rest tot
    else
      match lookupId cands ex_id with
      | none => enrichLoop cands rest tot
      | some cand =>
        let minutes := max 3 (min 20 minutes0)
        let out : OutItem :=
          { id := ex_id
            name := if cand.name = "" then ex_id else cand.name
            met := cand.met
            minutes := minutes
            sets := it.sets
            reps := it.reps
            note := it.note.getD "" }
        let p := enrichLoop cands rest (tot + minutes)
        (out :: p.1, p.2)

/-- The response the handler builds from a plan object. -/
def workoutResponse (cands : List Candidate) (plan : PlanJson) : PlanResponse :=
  let p := enrichLoop cands (plan.items.getD []) 0
  { planTitle :=
      match plan.planTitle with
      | some s => if s = "" then "AI Workout Plan" else s
      | none => "AI Workout Plan"
    totalMinutes := pyRound1 p.2
    items := p.1 }

/-- The JSON body of a `/api/workout_plan` request. -/
structure PlanRequest where
  targetCalories : Option ℚ
  weightKg : Option ℚ
  candidates : Option (List Candidate)

/-- The `workout_plan` endpoint handler from `src/app.py`.  The external
model call is summarized by `modelCall`: `none` if the call raised,
`some txt` on success with response text `txt` (itself `none` when the
model returned no text).  The `_note` key added to the fallback plan is
not modelled (the response never reads it). -/
def workout_plan (parse : String → Option PlanJson) (data : PlanRequest)
    (modelCall : Option (Option String)) : Response :=
  let targetCalories := data.targetCalories.getD 0
  let weightKg := data.weightKg.getD 0
  let candidates := (data.candidates.getD [])
  if targetCalories ≤ 0 ∨ weightKg ≤ 0 then
    Response.err 400 "targetCalories and weightKg must be > 0"
  else if candidates.isEmpty then
    Response.err 400 "candidates list is required"
  else
    let plan_json :=
      match modelCall with
      | none => fallback_plan targetCalories weightKg candidates
      | some txt =>
        match safe_json_extract parse (pyStrip (txt.getD "")) with
        | some p => p
        | none => fallback_plan targetCalories weightKg candidates
    Response.ok (workoutResponse candidates plan_json)

/-! ## Concrete fixtures used by witnesses and counterexamples -/

/-- Three positive-MET candidates with pairwise-distinct ids. -/
def demoCands : List Candidate :=
  [{ id := "a", name := "A", met := 10 }, { id := "b", name := "B", met := 8 },
    { id := "c", name := "C", met := 6 }]

/-- A concrete parsed plan with only two items (fewer than three). -/
def demoPlan : PlanJson :=
  { planTitle := some "Two items"
    items := some
      [{ id := some "a", minutes := some 5, sets := none, reps := none, note := none },
        { id := some "b", minutes := some 6, sets := none, reps := none, note := none }] }

/-- A parse function recognizing exactly the text "PLAN2". -/
def demoParse : String → Option PlanJson :=
  fun s => if s = "PLAN2" then some demoPlan else none

/-- A concrete valid request body. -/
def demoRequest : PlanRequest :=
  { targetCalories := some 1000, weightKg := some 70, candidates := some demoCands }

/-! ## Generic search and matcher lemmas -/

theorem searchL_eq_of_some {α : Type} {p : List Char → Option α} {cs : List Char} {v : α}
    (h : p cs = some v) : searchL p cs = some v := by
  cases cs <;> simp [searchL, h]

theorem searchL_eq_none {α : Type} (p : List Char → Option α) :
    ∀ cs : List Char, (∀ n : Nat, p (cs.drop n) = none) → searchL p cs = none := by
  intro cs
  induction cs with
  | nil => intro h; simpa [searchL] using h 0
  | cons c cs ih =>
    intro h
    have h0 : p (c :: cs) = none := by simpa using h 0
    have h1 : searchL p cs = none := ih (fun n => by simpa using h (n + 1))
    simp [searchL, h0, h1]

/-! ## C7: plan JSON normalizer -/

/-- C7: `safe_json_extract` first attempts a direct parse of the (stripped)
input; on failure it parses the substring from the first `{` to the last
`}` inclusive when that pair exists in order; otherwise it fails, which
signals the caller to use the fallback. -/
theorem C7_safe_json_extract_spec {α : Type} (parse : String → Option α) (text : String) :
    (∀ v, parse (pyStrip text) = some v → safe_json_extract parse text = some v) ∧
    (parse (pyStrip text) = none →
      ∀ s e, pyFind (pyStrip text).data '{' = some s →
        pyRfind (pyStrip text).data '}' = some e → s < e →
        safe_json_extract parse text =
          parse (String.mk (((pyStrip text).data.drop s).take (e + 1 - s)))) ∧
    (parse (pyStrip text) = none →
      (∀ s e, pyFind (pyStrip text).data '{' = some s →
        pyRfind (pyStrip text).data '}' = some e → e ≤ s) →
      safe_json_extract parse text = none) := by
  refine ⟨?_, ?_, ?_⟩
  · intro v h
    simp [safe_json_extract, h]
  · intro h s e hs he hlt
    simp [safe_json_extract, h, hs, he, hlt]
  · intro h hno
    simp only [safe_json_extract, h]
    cases hs : pyFind (pyStrip text).data '{' with
    | none => simp
    | some s =>
      cases he : pyRfind (pyStrip text).data '}' with
      | none => simp
      | some e =>
        have hnlt : ¬ s < e := not_lt.mpr (hno s e hs he)
        simp [hnlt]

/-- C7 witness: a concrete noisy text whose brace-delimited chunk parses. -/
theorem C7_witness :
    safe_json_extract (fun s => if s = "{1}" then some (37 : Nat) else none) "ok {1} end"
      = some 37 := by
  have h := (C7_safe_json_extract_spec
    (fun s => if s = "{1}" then some (37 : Nat) else none) "ok {1} end").2.1
  have hres := h (by decide) 3 5 (by decide) (by decide) (by decide)
  rw [hres]
  decide

/-! ## Enrichment lemmas (C5, C6) -/

theorem enrichLoop_fst (cands : List Candidate) :
    ∀ (items : List RawItem) (tot : ℚ),
      (enrichLoop cands items tot).1 =
        (items.filter (keep cands)).map (enrichOne cands) := by
  intro items
  induction items with
  | nil => intro tot; simp [enrichLoop]
  | cons it rest ih =>
    intro tot
    by_cases h1 : pyStrip (it.id.getD "") = "" ∨ it.minutes.getD 0 ≤ 0
    · have hk : keep cands it = false := by
        rcases h1 with h1 | h1 <;> simp [keep, stripId, h1]
      simp [enrichLoop, h1, List.filter_cons, hk, ih]
    · push_neg at h1
      obtain ⟨hid, hmin'⟩ := h1
      have hcond : ¬ (pyStrip (it.id.getD "") = "" ∨ it.minutes.getD 0 ≤ 0) := by
        push_neg
        exact ⟨hid, hmin'⟩
      cases hc : lookupId cands (pyStrip (it.id.getD "")) with
      | none =>
        have hk : keep cands it = false := by simp [keep, stripId, hc]
        simp [enrichLoop, hcond, hc, List.filter_cons, hk, ih]
      | some cand =>
        have hk : keep cands it = true := by simp [keep, stripId, hc, hid, hmin']
        simp only [enrichLoop, hcond, if_false, ite_false, if_neg hcond, hc]
        simp [List.filter_cons, hk, ih, enrichOne, stripId, hc]

/-- C5: the enrichment loop drops exactly the items with an empty or
unknown (post-strip) id or non-positive minutes, and the output is the
enrichment of the surviving items in their original order; dropping one
item never affects the others. -/
theorem C5_enrichment_drops_independent (cands : List Candidate) (items : List RawItem) :
    (∀ it : RawItem, lookupId cands (stripId it) = none → keep cands it = false) ∧
    (∀ it : RawItem, it.minutes.getD 0 ≤ 0 → keep cands it = false) ∧
    (enrichLoop cands items 0).1 = (items.filter (keep cands)).map (enrichOne cands) := by
  refine ⟨?_, ?_, enrichLoop_fst cands items 0⟩
  · intro it h
    simp [keep, h]
  · intro it h
    simp [keep, not_lt.mpr h]

/-- C5 witness: an item whose id matches no candidate is dropped. -/
theorem C5_witness :
    keep [{ id := "run", name := "Running", met := 10 }]
        { id := some "bad", minutes := some 5, sets := none, reps := none, note := none } = false ∧
    (enrichLoop [{ id := "run", name := "Running", met := 10 }]
        [{ id := some "bad", minutes := some 5, sets := none, reps := none, note := none }] 0).1
      = [] := by
  have h := C5_enrichment_drops_independent
    [{ id := "run", name := "Running", met := 10 }]
    [{ id := some "bad", minutes := some 5, sets := none, reps := none, note := none }]
  refine ⟨h.1 _ (by decide), ?_⟩
  rw [h.2.2]
  decide

theorem enrichLoop_snd (cands : List Candidate) :
    ∀ (items : List RawItem) (tot : ℚ),
      (enrichLoop cands items tot).2 =
        tot + (((enrichLoop cands items tot).1).map OutItem.minutes).sum := by
  intro items
  induction items with
  | nil => intro tot; simp [enrichLoop]
  | cons it rest ih =>
    intro tot
    by_cases h1 : pyStrip (it.id.getD "") = "" ∨ it.minutes.getD 0 ≤ 0
    · simp [enrichLoop, h1, ih tot]
    · push_neg at h1
      have hcond : ¬ (pyStrip (it.id.getD "") = "" ∨ it.minutes.getD 0 ≤ 0) := by
        push_neg
        exact h1
      cases hc : lookupId cands (pyStrip (it.id.getD "")) with
      | none => simp [enrichLoop, hcond, hc, ih tot]
      | some cand =>
        simp only [enrichLoop, if_neg hcond, hc]
        simp only [List.map_cons, List.sum_cons]
        rw [ih]
        ring

/-- C6: each surviving item's minutes is the original minutes clamped to
`[3, 20]`, and the response's totalMinutes is the rounded (1 decimal)
sum of the surviving items' clamped minutes. -/
theorem C6_clamp_and_total (cands : List Candidate) (plan : PlanJson) :
    (workoutResponse cands plan).totalMinutes =
      pyRound1 (((workoutResponse cands plan).items.map OutItem.minutes).sum) ∧
    (workoutResponse cands plan).items.map OutItem.minutes =
      ((plan.items.getD []).filter (keep cands)).map
        (fun it => max 3 (min 20 (it.minutes.getD 0))) := by
  constructor
  · simp only [workoutResponse]
    rw [enrichLoop_snd]
    norm_num
  · simp only [workoutResponse]
    rw [enrichLoop_fst, List.map_map]
    simp [Function.comp, enrichOne]

/-! ## Character-class facts -/

theorem not_space_of_digit {c : Char} (h : c.isDigit = true) : pyIsSpace c = false := by
  cases hc : pyIsSpace c
  · rfl
  · exfalso
    simp only [pyIsSpace, decide_eq_true_eq] at hc
    rcases hc with rfl | rfl | rfl | rfl | rfl | rfl <;> exact absurd h (by decide)

theorem dash_cases {c : Char} (h : isDash c = true) : c = '-' ∨ c = '–' := by
  simpa [isDash, decide_eq_true_eq] using h

theorem not_space_of_dash {c : Char} (h : isDash c = true) : pyIsSpace c = false := by
  rcases dash_cases h with rfl | rfl <;> decide

theorem not_digit_of_dash {c : Char} (h : isDash c = true) : c.isDigit = false := by
  rcases dash_cases h with rfl | rfl <;> decide

theorem dash_ne_dot {c : Char} (h : isDash c = true) : ¬ c = '.' := by
  rcases dash_cases h with rfl | rfl <;> decide

/-! ## takeWhile / strip lemmas -/

theorem takeWhile_all {p : Char → Bool} :
    ∀ {ds : List Char}, (∀ c ∈ ds, p c = true) → ds.takeWhile p = ds := by
  intro ds
  induction ds with
  | nil => intro _; rfl
  | cons c t ih =>
    intro h
    simp only [List.takeWhile_cons, h c (by simp), if_true]
    rw [ih (fun x hx => h x (by simp [hx]))]

theorem takeWhile_append_not {p : Char → Bool} :
    ∀ (ds : List Char) {c : Char} (t : List Char),
      (∀ x ∈ ds, p x = true) → p c = false → (ds ++ c :: t).takeWhile p = ds := by
  intro ds
  induction ds with
  | nil => intro c t _ hc; simp [List.takeWhile_cons, hc]
  | cons a as ih =>
    intro c t h hc
    simp only [List.cons_append, List.takeWhile_cons, h a (by simp), if_true]
    rw [ih t (fun x hx => h x (by simp [hx])) hc]

theorem pyStripL_eq_self {cs : List Char} (h : ∀ c ∈ cs, pyIsSpace c = false) :
    pyStripL cs = cs := by
  have h1 : cs.dropWhile pyIsSpace = cs := by
    cases cs with
    | nil => rfl
    | cons c t => simp [List.dropWhile_cons, h c (by simp)]
  have h2 : cs.reverse.dropWhile pyIsSpace = cs.reverse := by
    cases hrev : cs.reverse with
    | nil => rfl
    | cons c t =>
      have hm : c ∈ cs := by
        rw [← List.mem_reverse, hrev]
        simp
      simp [List.dropWhile_cons, h c hm]
  simp [pyStripL, h1, h2]

/-! ## Number-token lemmas -/

theorem takeDigits_all {ds : List Char} (hne : ds ≠ [])
    (h : ∀ c ∈ ds, c.isDigit = true) : takeDigits ds = some (ds, []) := by
  simp only [takeDigits]
  rw [takeWhile_all h]
  have h1 : ds.isEmpty = false := by
    cases ds
    · exact absurd rfl hne
    · rfl
  simp [h1, List.drop_length]

theorem takeDigits_append {ds : List Char} {c : Char} {t : List Char} (hne : ds ≠ [])
    (h : ∀ x ∈ ds, x.isDigit = true) (hc : c.isDigit = false) :
    takeDigits (ds ++ c :: t) = some (ds, c :: t) := by
  simp only [takeDigits]
  rw [takeWhile_append_not ds t h hc]
  have h1 : ds.isEmpty = false := by
    cases ds
    · exact absurd rfl hne
    · rfl
  simp [h1, List.drop_left]

theorem parseDec_all {ds : List Char} (hne : ds ≠ [])
    (h : ∀ c ∈ ds, c.isDigit = true) :
    parseDec ds = some ((digitsToNat ds : ℚ), []) := by
  simp only [parseDec, takeDigits_all hne h]

theorem parseDec_append {ds : List Char} {c : Char} {t : List Char} (hne : ds ≠ [])
    (h : ∀ x ∈ ds, x.isDigit = true) (hcd : c.isDigit = false) (hdot : ¬ c = '.') :
    parseDec (ds ++ c :: t) = some ((digitsToNat ds : ℚ), c :: t) := by
  simp only [parseDec, takeDigits_append hne h hcd]
  simp [hdot]

theorem skipSpaces_cons_not {c : Char} {t : List Char} (h : pyIsSpace c = false) :
    skipSpaces (c :: t) = c :: t := by
  simp [skipSpaces, List.dropWhile_cons, h]

/-! ## Range pattern lemmas -/

theorem tryRange_exact {ds1 ds2 : List Char} {d : Char} (h1 : ds1 ≠ []) (h2 : ds2 ≠ [])
    (ha : ∀ c ∈ ds1, c.isDigit = true) (hb : ∀ c ∈ ds2, c.isDigit = true)
    (hd : isDash d = true) :
    tryRange (ds1 ++ d :: ds2) = some ((digitsToNat ds1 : ℚ), (digitsToNat ds2 : ℚ)) := by
  have hpd := parseDec_append h1 ha (not_digit_of_dash hd) (dash_ne_dot hd) (t := ds2)
  simp only [tryRange, hpd]
  rw [skipSpaces_cons_not (not_space_of_dash hd)]
  simp only [hd, if_true]
  cases ds2 with
  | nil => exact absurd rfl h2
  | cons c2 t2 =>
    rw [skipSpaces_cons_not (not_space_of_digit (hb c2 (by simp)))]
    rw [parseDec_all h2 hb]

theorem tryRange_none_all_digits {cs : List Char}
    (h : ∀ c ∈ cs, c.isDigit = true) : tryRange cs = none := by
  cases hcs : cs with
  | nil => rfl
  | cons c t =>
    rw [← hcs]
    have hne : cs ≠ [] := by rw [hcs]; exact List.cons_ne_nil _ _
    simp only [tryRange, parseDec_all hne h]
    rfl

theorem searchL_tryRange_digits {ds : List Char}
    (h : ∀ c ∈ ds, c.isDigit = true) : searchL tryRange ds = none :=
  searchL_eq_none _ _ (fun n =>
    tryRange_none_all_digits (fun c hc => h c (List.drop_subset n ds hc)))

theorem avg_range_exact {ds1 ds2 : List Char} {d : Char} (h1 : ds1 ≠ []) (h2 : ds2 ≠ [])
    (ha : ∀ c ∈ ds1, c.isDigit = true) (hb : ∀ c ∈ ds2, c.isDigit = true)
    (hd : isDash d = true) :
    avg_from_range_text (some (String.mk (ds1 ++ d :: ds2))) =
      some (((digitsToNat ds1 : ℚ) + (digitsToNat ds2 : ℚ)) / 2) := by
  have hall : ∀ c ∈ ds1 ++ d :: ds2, pyIsSpace c = false := by
    intro c hc
    rcases List.mem_append.mp hc with hc | hc
    · exact not_space_of_digit (ha c hc)
    · rcases List.mem_cons.mp hc with rfl | hc
      · exact not_space_of_dash hd
      · exact not_space_of_digit (hb c hc)
  simp only [avg_from_range_text]
  rw [pyStripL_eq_self hall]
  rw [searchL_eq_of_some (tryRange_exact h1 h2 ha hb hd)]

theorem avg_bare_exact {ds : List Char} (hne : ds ≠ [])
    (h : ∀ c ∈ ds, c.isDigit = true) :
    avg_from_range_text (some (String.mk ds)) = some (digitsToNat ds : ℚ) := by
  simp only [avg_from_range_text]
  rw [pyStripL_eq_self (fun c hc => not_space_of_digit (h c hc))]
  rw [searchL_tryRange_digits h]
  rw [searchL_eq_of_some (p := fun cs => (parseDec cs).map Prod.fst)
    (v := (digitsToNat ds : ℚ)) (by
      show (parseDec ds).map Prod.fst = some ((digitsToNat ds : ℚ))
      rw [parseDec_all hne h]
      rfl)]

/-! ## C3 and C10: the numeric range parser -/

/-- C3: on a range string "A-B" (hyphen or en-dash) with A ≤ B the parser
returns the midpoint (A+B)/2; on a bare number it returns that number; on
empty or absent input it returns absent, not zero. -/
theorem C3_range_parser_spec :
    (∀ (ds1 ds2 : List Char) (d : Char), ds1 ≠ [] → ds2 ≠ [] →
      (∀ c ∈ ds1, c.isDigit = true) → (∀ c ∈ ds2, c.isDigit = true) → isDash d = true →
      digitsToNat ds1 ≤ digitsToNat ds2 →
      avg_from_range_text (some (String.mk (ds1 ++ d :: ds2))) =
        some (((digitsToNat ds1 : ℚ) + (digitsToNat ds2 : ℚ)) / 2)) ∧
    (∀ ds : List Char, ds ≠ [] → (∀ c ∈ ds, c.isDigit = true) →
      avg_from_range_text (some (String.mk ds)) = some (digitsToNat ds : ℚ)) ∧
    avg_from_range_text (some "") = none ∧
    avg_from_range_text none = none :=
  ⟨fun _ _ _ h1 h2 ha hb hd _ => avg_range_exact h1 h2 ha hb hd,
    fun _ hne h => avg_bare_exact hne h, by decide, rfl⟩

/-- C3 witness: "30-40" parses to 35 and "30" to 30. -/
theorem C3_witness :
    avg_from_range_text (some "30-40") = some 35 ∧
    avg_from_range_text (some "30") = some 30 := by
  constructor
  · have h := C3_range_parser_spec.1 ['3', '0'] ['4', '0'] '-' (by decide) (by decide)
      (by decide) (by decide) (by decide) (by decide)
    rw [show digitsToNat ['3', '0'] = 30 from by decide,
      show digitsToNat ['4', '0'] = 40 from by decide] at h
    norm_num at h
    exact h
  · have h := C3_range_parser_spec.2.1 ['3', '0'] (by decide) (by decide)
    rw [show digitsToNat ['3', '0'] = 30 from by decide] at h
    exact h

/-- C10: on a reversed range "A-B" with A > B the parser still returns the
midpoint (A+B)/2; no ordering check is performed on the two bounds. -/
theorem C10_reversed_range_midpoint :
    ∀ (ds1 ds2 : List Char) (d : Char), ds1 ≠ [] → ds2 ≠ [] →
      (∀ c ∈ ds1, c.isDigit = true) → (∀ c ∈ ds2, c.isDigit = true) → isDash d = true →
      digitsToNat ds2 < digitsToNat ds1 →
      avg_from_range_text (some (String.mk (ds1 ++ d :: ds2))) =
        some (((digitsToNat ds1 : ℚ) + (digitsToNat ds2 : ℚ)) / 2) :=
  fun _ _ _ h1 h2 ha hb hd _ => avg_range_exact h1 h2 ha hb hd

/-- C10 witness: "40-30" parses to 35. -/
theorem C10_witness : avg_from_range_text (some "40-30") = some 35 := by
  have h := C10_reversed_range_midpoint ['4', '0'] ['3', '0'] '-' (by decide) (by decide)
    (by decide) (by decide) (by decide) (by decide)
  rw [show digitsToNat ['4', '0'] = 40 from by decide,
    show digitsToNat ['3', '0'] = 30 from by decide] at h
  norm_num at h
  exact h

/-! ## C8: extractor robustness lemmas -/

theorem matchLit_sublist : ∀ (ls cs r : List Char),
    matchLit ls cs = some r → List.Sublist r cs := by
  intro ls
  induction ls with
  | nil =>
    intro cs r h
    simp only [matchLit, Option.some.injEq] at h
    subst h
    exact List.Sublist.refl _
  | cons l ls ih =>
    intro cs r h
    cases cs with
    | nil => simp [matchLit] at h
    | cons c cs' =>
      simp only [matchLit] at h
      by_cases hc : c = l
      · rw [if_pos hc] at h
        exact (ih cs' r h).cons c
      · rw [if_neg hc] at h
        exact absurd h (by simp)

theorem skipSpaces_sublist (cs : List Char) : List.Sublist (skipSpaces cs) cs :=
  List.dropWhile_sublist _

theorem skipSep_sublist (cs : List Char) : List.Sublist (skipSep cs) cs := by
  simp only [skipSep]
  cases hss : skipSpaces cs with
  | nil => exact List.nil_sublist _
  | cons c r2 =>
    show (if c = ':' ∨ c = '-' then skipSpaces r2 else c :: r2).Sublist cs
    by_cases hc : c = ':' ∨ c = '-'
    · rw [if_pos hc]
      exact ((skipSpaces_sublist r2).trans
        ((List.sublist_cons_self c r2).trans (hss ▸ skipSpaces_sublist cs)))
    · rw [if_neg hc]
      exact hss ▸ skipSpaces_sublist cs

theorem takeDigits_none {cs : List Char} (h : ∀ c ∈ cs, c.isDigit = false) :
    takeDigits cs = none := by
  cases cs with
  | nil => rfl
  | cons c t => simp [takeDigits, List.takeWhile_cons, h c (by simp)]

theorem parseDec_none {cs : List Char} (h : ∀ c ∈ cs, c.isDigit = false) :
    parseDec cs = none := by
  simp [parseDec, takeDigits_none h]

theorem tryGramNum_none {cs : List Char} (h : ∀ c ∈ cs, c.isDigit = false) :
    tryGramNum cs = none := by
  simp [tryGramNum, parseDec_none h]

theorem tryGram_after_lit_none {lab cs r : List Char}
    (h : ∀ c ∈ cs, c.isDigit = false) (hm : matchLit lab cs = some r) :
    tryGramNum (skipSep r) = none := by
  have hr : List.Sublist r cs := matchLit_sublist _ _ _ hm
  have hsub : List.Sublist (skipSep r) cs := (skipSep_sublist r).trans hr
  exact tryGramNum_none (fun c hc => h c (hsub.subset hc))

theorem tryProtein_none {cs : List Char} (h : ∀ c ∈ cs, c.isDigit = false) :
    tryProtein cs = none := by
  cases hm : matchLit "protein".data cs with
  | none => simp [tryProtein, hm]
  | some r => simp [tryProtein, hm, tryGram_after_lit_none h hm]

theorem tryCarbs_none {cs : List Char} (h : ∀ c ∈ cs, c.isDigit = false) :
    tryCarbs cs = none := by
  cases hm1 : matchLit "carbs".data cs with
  | some r => simp [tryCarbs, hm1, tryGram_after_lit_none h hm1]
  | none =>
    cases hm2 : matchLit "carbohydrates".data cs with
    | some r => simp [tryCarbs, hm1, hm2, tryGram_after_lit_none h hm2]
    | none =>
      cases hm3 : matchLit "carbohydrate".data cs with
      | some r => simp [tryCarbs, hm1, hm2, hm3, tryGram_after_lit_none h hm3]
      | none => simp [tryCarbs, hm1, hm2, hm3]

theorem tryFat_none {cs : List Char} (h : ∀ c ∈ cs, c.isDigit = false) :
    tryFat cs = none := by
  cases hm : matchLit "fat".data cs with
  | none => simp [tryFat, hm]
  | some r => simp [tryFat, hm, tryGram_after_lit_none h hm]

theorem tryKcalDash_none {cs : List Char} (h : ∀ c ∈ cs, c.isDigit = false) :
    tryKcalDash cs = none := by
  simp [tryKcalDash, takeDigits_none h]

theorem tryKcalTo_none {cs : List Char} (h : ∀ c ∈ cs, c.isDigit = false) :
    tryKcalTo cs = none := by
  simp [tryKcalTo, takeDigits_none h]

theorem search_none_of_noDigit {α : Type} {p : List Char → Option α} {cs : List Char}
    (h : ∀ ds : List Char, (∀ c ∈ ds, c.isDigit = false) → p ds = none)
    (hcs : ∀ c ∈ cs, c.isDigit = false) : searchL p cs = none :=
  searchL_eq_none _ _ (fun n => h _ (fun c hc => hcs c (List.drop_subset n cs hc)))

theorem searchDish_none {text : List Char}
    (h2 : ∀ n, n ≤ text.length → matchLitCI "dish name".data (text.drop n) = none) :
    searchL tryDish text = none :=
  searchL_eq_none _ _ (fun n => by
    by_cases hn : n ≤ text.length
    · simp [tryDish, h2 n hn]
    · have hnil : text.drop n = [] :=
        List.drop_eq_nil_of_le (Nat.le_of_lt (Nat.lt_of_not_le hn))
      rw [hnil]
      decide)

/-- C8: the nutrition field extractor is a total function, and on text
containing no digit characters and no occurrence of the (case-folded)
"dish name" label it returns a record with all five fields absent. -/
theorem C8_extract_no_fields (raw : Option String) :
    (∀ c ∈ (pyStripL (raw.getD "").data).map Char.toLower, c.isDigit = false) →
    (∀ n, n ≤ (pyStripL (raw.getD "").data).length →
      matchLitCI "dish name".data ((pyStripL (raw.getD "").data).drop n) = none) →
    extract_fields raw = ⟨none, none, none, none, none⟩ := by
  intro h1 h2
  simp only [extract_fields]
  rw [searchDish_none h2,
    search_none_of_noDigit (fun ds hds => tryKcalDash_none hds) h1,
    search_none_of_noDigit (fun ds hds => tryKcalTo_none hds) h1,
    search_none_of_noDigit (fun ds hds => tryProtein_none hds) h1,
    search_none_of_noDigit (fun ds hds => tryCarbs_none hds) h1,
    search_none_of_noDigit (fun ds hds => tryFat_none hds) h1]
  rfl

/-- C8 witness: a concrete unlabeled text yields the all-absent record. -/
theorem C8_witness :
    extract_fields (some "hello world, nothing to see") =
      ⟨none, none, none, none, none⟩ :=
  C8_extract_no_fields _ (by decide) (by decide)

/-! ## Rounding bounds -/

theorem pyRound1_bounds {x : ℚ} (h4 : 4 ≤ x) (h12 : x ≤ 12) :
    4 ≤ pyRound1 x ∧ pyRound1 x ≤ 12 := by
  have h40 : (40 : ℚ) ≤ 10 * x := by linarith
  have h120 : 10 * x ≤ 120 := by linarith
  have hfl : (40 : ℤ) ≤ ⌊10 * x⌋ := Int.le_floor.mpr (by push_cast; linarith)
  have hfle : ((⌊10 * x⌋ : ℤ) : ℚ) ≤ 10 * x := Int.floor_le _
  have hA : ⌊10 * x⌋ ≤ 120 := by
    have hq : ((⌊10 * x⌋ : ℤ) : ℚ) ≤ 120 := le_trans hfle h120
    exact_mod_cast hq
  have hB : (1 / 2 : ℚ) ≤ 10 * x - ⌊10 * x⌋ → ⌊10 * x⌋ ≤ 119 := by
    intro hb
    have h2 : ((2 * ⌊10 * x⌋ : ℤ) : ℚ) ≤ 239 := by push_cast; linarith
    have h3 : (2 * ⌊10 * x⌋ : ℤ) ≤ 239 := by exact_mod_cast h2
    omega
  have hlow : (40 : ℤ) ≤ pyRoundHalfEven (10 * x) := by
    unfold pyRoundHalfEven
    split_ifs <;> omega
  have hhigh : pyRoundHalfEven (10 * x) ≤ 120 := by
    unfold pyRoundHalfEven
    split_ifs with hf1 hf2 hf3
    · exact hA
    · have := hB (le_of_lt hf2)
      omega
    · exact hA
    · have := hB (le_of_not_lt hf1)
      omega
  have hlowq : (40 : ℚ) ≤ (pyRoundHalfEven (10 * x) : ℚ) := by exact_mod_cast hlow
  have hhighq : (pyRoundHalfEven (10 * x) : ℚ) ≤ 120 := by exact_mod_cast hhigh
  unfold pyRound1
  constructor <;> linarith

/-! ## Fallback planner lemmas -/

theorem fallbackLoop_length_le (w : ℚ) :
    ∀ (cs : List Candidate) (r : ℚ) (n : Nat), n < 5 →
      (fallbackLoop w cs r n).length ≤ 5 - n := by
  intro cs
  induction cs with
  | nil => intro r n _; simp [fallbackLoop]
  | cons c cs ih =>
    intro r n hn
    by_cases hr : r ≤ 0
    · simp [fallbackLoop, hr]
    · by_cases h5 : n + 1 ≥ 5
      · simp only [fallbackLoop, if_neg hr, if_pos h5, List.length_singleton]
        omega
      · simp only [fallbackLoop, if_neg hr, if_neg h5, List.length_cons]
        have := ih (r - kcal_burned c.met w (max 4 (min 12 (r * 60 / (c.met * w)))))
          (n + 1) (by omega)
        omega

theorem fallbackLoop_cons_length {w : ℚ} {c : Candidate} {cs : List Candidate} {r : ℚ}
    (hr : 0 < r) : 1 ≤ (fallbackLoop w (c :: cs) r 0).length := by
  simp only [fallbackLoop, if_neg (not_le.mpr hr)]
  have h5 : ¬ (0 + 1 ≥ 5) := by omega
  simp only [if_neg h5, List.length_cons]
  omega

theorem fallbackLoop_ids_sublist (w : ℚ) :
    ∀ (cs : List Candidate) (r : ℚ) (n : Nat),
      List.Sublist ((fallbackLoop w cs r n).map RawItem.id)
        (cs.map (fun c => some c.id)) := by
  intro cs
  induction cs with
  | nil => intro r n; simp [fallbackLoop]
  | cons c cs ih =>
    intro r n
    by_cases hr : r ≤ 0
    · simp only [fallbackLoop, if_pos hr, List.map_nil]
      exact List.nil_sublist _
    · by_cases h5 : n + 1 ≥ 5
      · simp only [fallbackLoop, if_neg hr, if_pos h5, List.map_cons, List.map_nil]
        exact (List.nil_sublist _).cons₂ _
      · simp only [fallbackLoop, if_neg hr, if_neg h5, List.map_cons]
        exact (ih _ (n + 1)).cons₂ _

theorem fallbackLoop_minutes (w : ℚ) :
    ∀ (cs : List Candidate) (r : ℚ) (n : Nat),
      ∀ it ∈ fallbackLoop w cs r n, ∃ m, it.minutes = some m ∧ 4 ≤ m ∧ m ≤ 12 := by
  intro cs
  induction cs with
  | nil => intro r n it hit; simp [fallbackLoop] at hit
  | cons c cs ih =>
    intro r n it hit
    by_cases hr : r ≤ 0
    · simp [fallbackLoop, hr] at hit
    · by_cases h5 : n + 1 ≥ 5
      · simp only [fallbackLoop, if_neg hr, if_pos h5, List.mem_singleton] at hit
        subst hit
        obtain ⟨hb1, hb2⟩ := pyRound1_bounds (le_max_left 4 _)
          (max_le (by norm_num) (min_le_left 12 _))
        exact ⟨_, rfl, hb1, hb2⟩
      · simp only [fallbackLoop, if_neg hr, if_neg h5, List.mem_cons] at hit
        rcases hit with rfl | hit
        · obtain ⟨hb1, hb2⟩ := pyRound1_bounds (le_max_left 4 _)
            (max_le (by norm_num) (min_le_left 12 _))
          exact ⟨_, rfl, hb1, hb2⟩
        · exact ih _ _ it hit

theorem mets_pos_in_sorted (candidates : List Candidate) :
    ∀ c ∈ (List.insertionSort (fun a b => b.met ≤ a.met)
      (candidates.filter (fun c => decide (0 < c.met)))).take 10, 0 < c.met := by
  intro c hc
  have h1 : c ∈ List.insertionSort (fun a b => b.met ≤ a.met)
      (candidates.filter (fun c => decide (0 < c.met))) := List.take_subset _ _ hc
  have h2 : c ∈ candidates.filter (fun c => decide (0 < c.met)) :=
    (List.perm_insertionSort _ _).mem_iff.mp h1
  have h3 := List.of_mem_filter h2
  simpa using h3

/-! ## C2: fallback planner size invariant -/

/-- C2 counterexample: a valid input (positive target and weight, three
positive-MET candidates with distinct ids) on which the planner emits a
single item — fewer than the claimed minimum of three. -/
theorem C2_counterexample :
    (0 : ℚ) < 10 ∧ (0 : ℚ) < 60 ∧
    (demoCands.filter (fun c => decide (0 < c.met))).length = 3 ∧
    (demoCands.map Candidate.id).Nodup ∧
    ((fallback_plan 10 60 demoCands).items.getD []).length = 1 ∧
    ¬ 3 ≤ ((fallback_plan 10 60 demoCands).items.getD []).length := by
  have hlen : ((fallback_plan 10 60 demoCands).items.getD []).length = 1 := by
    norm_num [fallback_plan, fallbackLoop, kcal_burned, demoCands,
      List.insertionSort, List.orderedInsert, max_def, min_def]
  refine ⟨by norm_num, by norm_num, by decide, by decide, hlen, ?_⟩
  rw [hlen]
  omega

/-- C2 (amended): for positive target and weight and a candidate list with
pairwise-distinct ids and at least three strictly-positive-MET entries,
the fallback plan has between 1 and 6 items (the code has no padding step
guaranteeing three), with pairwise-distinct exercise ids and each item's
minutes within the per-item clamp bounds [4, 12]. -/
theorem C2_fallback_plan_invariant (targetCalories weightKg : ℚ)
    (candidates : List Candidate)
    (ht : 0 < targetCalories) (hw : 0 < weightKg)
    (hids : (candidates.map Candidate.id).Nodup)
    (h3 : 3 ≤ (candidates.filter (fun c => decide (0 < c.met))).length) :
    1 ≤ ((fallback_plan targetCalories weightKg candidates).items.getD []).length ∧
    ((fallback_plan targetCalories weightKg candidates).items.getD []).length ≤ 6 ∧
    (((fallback_plan targetCalories weightKg candidates).items.getD []).map
      RawItem.id).Nodup ∧
    ∀ it ∈ (fallback_plan targetCalories weightKg candidates).items.getD [],
      ∃ m, it.minutes = some m ∧ 4 ≤ m ∧ m ≤ 12 := by
  simp only [fallback_plan, Option.getD_some]
  have hsortlen : 3 ≤ (List.insertionSort (fun a b => b.met ≤ a.met)
      (candidates.filter (fun c => decide (0 < c.met)))).length := by
    rw [(List.perm_insertionSort (fun a b => b.met ≤ a.met)
      (candidates.filter (fun c => decide (0 < c.met)))).length_eq]
    exact h3
  refine ⟨?_, ?_, ?_, fallbackLoop_minutes _ _ _ _⟩
  · cases hsort : List.insertionSort (fun a b => b.met ≤ a.met)
        (candidates.filter (fun c => decide (0 < c.met))) with
    | nil =>
      rw [hsort] at hsortlen
      simp at hsortlen
    | cons c rest =>
      rw [show (10 : Nat) = 9 + 1 from rfl, List.take_succ_cons]
      exact fallbackLoop_cons_length ht
  · have := fallbackLoop_length_le weightKg
      ((List.insertionSort (fun a b => b.met ≤ a.met)
        (candidates.filter (fun c => decide (0 < c.met)))).take 10)
      targetCalories 0 (by omega)
    omega
  · have hsub := fallbackLoop_ids_sublist weightKg
      ((List.insertionSort (fun a b => b.met ≤ a.met)
        (candidates.filter (fun c => decide (0 < c.met)))).take 10)
      targetCalories 0
    have hfil : ((candidates.filter (fun c => decide (0 < c.met))).map
        Candidate.id).Nodup :=
      hids.sublist (List.Sublist.map _ (List.filter_sublist _))
    have hsort : ((List.insertionSort (fun a b => b.met ≤ a.met)
        (candidates.filter (fun c => decide (0 < c.met)))).map Candidate.id).Nodup := by
      have hperm := (List.perm_insertionSort (fun a b => b.met ≤ a.met)
        (candidates.filter (fun c => decide (0 < c.met)))).map Candidate.id
      exact hperm.nodup_iff.mpr hfil
    have htake : (((List.insertionSort (fun a b => b.met ≤ a.met)
        (candidates.filter (fun c => decide (0 < c.met)))).take 10).map
        Candidate.id).Nodup :=
      hsort.sublist (List.Sublist.map _ (List.take_sublist _ _))
    have hsome : (((List.insertionSort (fun a b => b.met ≤ a.met)
        (candidates.filter (fun c => decide (0 < c.met)))).take 10).map
        (fun c => some c.id)).Nodup := by
      have := htake.map (Option.some_injective String)
      simpa [List.map_map, Function.comp] using this
    exact hsome.sublist hsub

/-- C2 witness: the amended invariant instantiated on a concrete input. -/
theorem C2_witness :
    1 ≤ ((fallback_plan 1000 70 demoCands).items.getD []).length ∧
    ((fallback_plan 1000 70 demoCands).items.getD []).length ≤ 6 ∧
    (((fallback_plan 1000 70 demoCands).items.getD []).map RawItem.id).Nodup ∧
    ∀ it ∈ (fallback_plan 1000 70 demoCands).items.getD [],
      ∃ m, it.minutes = some m ∧ 4 ≤ m ∧ m ≤ 12 :=
  C2_fallback_plan_invariant 1000 70 demoCands (by norm_num) (by norm_num)
    (by decide) (by decide)

/-! ## C4: fallback planner monotonicity -/

theorem sub_clamp_mono {A B r1 r2 : ℚ} (hAB : A ≤ B) (h : r1 ≤ r2) :
    r1 - max A (min B r1) ≤ r2 - max A (min B r2) := by
  simp only [max_def, min_def]
  split_ifs <;> linarith

theorem step_mono {met w r1 r2 : ℚ} (hm : 0 < met) (hw : 0 < w) (h : r1 ≤ r2) :
    r1 - kcal_burned met w (max 4 (min 12 (r1 * 60 / (met * w)))) ≤
      r2 - kcal_burned met w (max 4 (min 12 (r2 * 60 / (met * w)))) := by
  have hk : (0 : ℚ) < met * w := mul_pos hm hw
  have hk' : met * w ≠ 0 := ne_of_gt hk
  set u1 := r1 * 60 / (met * w) with hu1
  set u2 := r2 * 60 / (met * w) with hu2
  have hu : u1 ≤ u2 := by
    rw [hu1, hu2]
    exact div_le_div_of_nonneg_right (by linarith) hk.le
  have e1 : met * w * u1 / 60 = r1 := by
    rw [hu1]
    field_simp
  have e2 : met * w * u2 / 60 = r2 := by
    rw [hu2]
    field_simp
  have key : u1 - max 4 (min 12 u1) ≤ u2 - max 4 (min 12 u2) :=
    sub_clamp_mono (by norm_num) hu
  have key2 : met * w * (u1 - max 4 (min 12 u1)) ≤ met * w * (u2 - max 4 (min 12 u2)) :=
    mul_le_mul_of_nonneg_left key hk.le
  unfold kcal_burned
  nlinarith [key2, e1, e2]

theorem fallbackLoop_length_mono (w : ℚ) (hw : 0 < w) :
    ∀ (cs : List Candidate), (∀ c ∈ cs, 0 < c.met) →
      ∀ (r1 r2 : ℚ) (n : Nat), r1 ≤ r2 →
        (fallbackLoop w cs r1 n).length ≤ (fallbackLoop w cs r2 n).length := by
  intro cs
  induction cs with
  | nil => intro _ r1 r2 n _; simp [fallbackLoop]
  | cons c cs ih =>
    intro hmet r1 r2 n h12
    by_cases hr1 : r1 ≤ 0
    · simp only [fallbackLoop, if_pos hr1, List.length_nil]
      omega
    · have hr2 : ¬ r2 ≤ 0 := fun hc => hr1 (le_trans h12 hc)
      by_cases h5 : n + 1 ≥ 5
      · simp only [fallbackLoop, if_neg hr1, if_neg hr2, if_pos h5,
          List.length_singleton]
        omega
      · simp only [fallbackLoop, if_neg hr1, if_neg hr2, if_neg h5, List.length_cons]
        have hstep := step_mono (hmet c (List.mem_cons_self c cs)) hw h12
        have hrec := ih (fun x hx => hmet x (List.mem_cons_of_mem c hx)) _ _ (n + 1) hstep
        omega

/-- C4: with weight and candidates fixed, a larger calorie target never
yields fewer fallback items (the per-step remaining-gap update is monotone
in the remaining gap, and the 5-item cap applies equally). -/
theorem C4_fallback_monotone (t1 t2 weightKg : ℚ) (candidates : List Candidate)
    (hw : 0 < weightKg) (h : t1 ≤ t2) :
    ((fallback_plan t1 weightKg candidates).items.getD []).length ≤
      ((fallback_plan t2 weightKg candidates).items.getD []).length := by
  simp only [fallback_plan, Option.getD_some]
  exact fallbackLoop_length_mono weightKg hw _ (mets_pos_in_sorted candidates)
    t1 t2 0 h

/-- C4 witness: monotonicity instantiated on a concrete input. -/
theorem C4_witness :
    ((fallback_plan 100 70 demoCands).items.getD []).length ≤
      ((fallback_plan 1000 70 demoCands).items.getD []).length :=
  C4_fallback_monotone 100 1000 70 demoCands (by norm_num) (by norm_num)

/-! ## C1 and C9: the endpoint handler -/

theorem workout_plan_checks_pass {data : PlanRequest}
    (ht : 0 < data.targetCalories.getD 0) (hw : 0 < data.weightKg.getD 0) :
    ¬ (data.targetCalories.getD 0 ≤ 0 ∨ data.weightKg.getD 0 ≤ 0) := by
  push_neg
  exact ⟨ht, hw⟩

theorem isEmpty_false_of_ne_nil {l : List Candidate} (h : l ≠ []) :
    l.isEmpty = false := by
  cases l
  · exact absurd rfl h
  · rfl

/-- C1 (amended): the handler performs no item-count or duplicate-id
validation: whenever the model call returns text that parses, the parsed
plan is enriched and returned as-is — regardless of its item count or of
duplicate ids — and the fallback planner is not involved. -/
theorem C1_no_plan_validation (parse : String → Option PlanJson) (data : PlanRequest)
    (raw : String) (plan : PlanJson)
    (ht : 0 < data.targetCalories.getD 0) (hw : 0 < data.weightKg.getD 0)
    (hc : (data.candidates.getD []) ≠ [])
    (hparse : safe_json_extract parse (pyStrip ((some raw).getD "")) = some plan) :
    workout_plan parse data (some (some raw)) =
      Response.ok (workoutResponse (data.candidates.getD []) plan) := by
  simp only [workout_plan, if_neg (workout_plan_checks_pass ht hw),
    isEmpty_false_of_ne_nil hc, Bool.false_eq_true, if_false, hparse]

/-- C1 counterexample: a successfully parsed two-item plan (item count
below the claimed minimum of three) is not rejected: the handler returns
its enrichment, not the fallback planner's. -/
theorem C1_counterexample :
    (demoPlan.items.getD []).length = 2 ∧
    workout_plan demoParse demoRequest (some (some "PLAN2")) =
      Response.ok (workoutResponse demoCands demoPlan) ∧
    workout_plan demoParse demoRequest (some (some "PLAN2")) ≠
      Response.ok (workoutResponse demoCands (fallback_plan 1000 70 demoCands)) := by
  have hparse : safe_json_extract demoParse (pyStrip ((some "PLAN2").getD "")) =
      some demoPlan := by decide
  have h1 : ¬ (demoRequest.targetCalories.getD 0 ≤ 0 ∨
      demoRequest.weightKg.getD 0 ≤ 0) := by
    push_neg
    constructor <;> norm_num [demoRequest]
  have h2 : (demoRequest.candidates.getD []).isEmpty = false := by decide
  have heval : workout_plan demoParse demoRequest (some (some "PLAN2")) =
      Response.ok (workoutResponse demoCands demoPlan) := by
    simp only [workout_plan, if_neg h1, h2, Bool.false_eq_true, if_false, hparse]
    rfl
  refine ⟨by decide, heval, ?_⟩
  rw [heval]
  intro h
  have h3 : workoutResponse demoCands demoPlan =
      workoutResponse demoCands (fallback_plan 1000 70 demoCands) := by
    injection h
  have h4 := congrArg PlanResponse.planTitle h3
  have t1 : (workoutResponse demoCands demoPlan).planTitle = "Two items" := by decide
  have t2 : (workoutResponse demoCands
      (fallback_plan 1000 70 demoCands)).planTitle = "AI Workout Plan" := by decide
  rw [t1, t2] at h4
  exact absurd h4 (by decide)

/-- C1 witness: the amended no-validation theorem on the concrete
two-item plan. -/
theorem C1_witness :
    workout_plan demoParse demoRequest (some (some "PLAN2")) =
      Response.ok (workoutResponse demoCands demoPlan) :=
  C1_no_plan_validation demoParse demoRequest "PLAN2" demoPlan
    (by norm_num [demoRequest]) (by norm_num [demoRequest]) (by decide) (by decide)

/-- C9: with valid numeric inputs and a nonempty candidate list, every
external-model failure — a raised call, or text whose JSON extraction
fails (including empty text) — is absorbed: the handler answers 200 with
the enriched fallback plan, never an error response. -/
theorem C9_model_failure_falls_back (parse : String → Option PlanJson)
    (data : PlanRequest) (modelCall : Option (Option String))
    (ht : 0 < data.targetCalories.getD 0) (hw : 0 < data.weightKg.getD 0)
    (hc : (data.candidates.getD []) ≠ [])
    (hfail : modelCall = none ∨ ∃ txt, modelCall = some txt ∧
      safe_json_extract parse (pyStrip (txt.getD "")) = none) :
    workout_plan parse data modelCall =
      Response.ok (workoutResponse (data.candidates.getD [])
        (fallback_plan (data.targetCalories.getD 0) (data.weightKg.getD 0)
          (data.candidates.getD []))) := by
  rcases hfail with rfl | ⟨txt, rfl, hparse⟩
  · simp only [workout_plan, if_neg (workout_plan_checks_pass ht hw),
      isEmpty_false_of_ne_nil hc, Bool.false_eq_true, if_false]
  · simp only [workout_plan, if_neg (workout_plan_checks_pass ht hw),
      isEmpty_false_of_ne_nil hc, Bool.false_eq_true, if_false, hparse]

/-- C9 witness: unparseable model text on a valid request yields the
enriched fallback plan with a 200 response. -/
theorem C9_witness :
    workout_plan (fun _ => none) demoRequest (some (some "oops")) =
      Response.ok (workoutResponse demoCands (fallback_plan 1000 70 demoCands)) :=
  C9_model_failure_falls_back (fun _ => none) demoRequest (some (some "oops"))
    (by norm_num [demoRequest]) (by norm_num [demoRequest]) (by decide)
    (Or.inr ⟨some "oops", rfl, by decide⟩)

end FoodApi
